import Mathlib

/-!
Verification of the Evmos ERC-20 precompile bridge, the pre-transfer balance
check and the precompile registry against their natural-language specification.

The definitions below are a shallow embedding of the Go sources:
  * `precompiles/erc20/erc20.go` — `RequiredGas`, `Run`, `IsTransaction`,
    `HandleMethod` and the gas constants;
  * `app/ante/evm/07_can_transfer.go` — `CanTransfer`;
  * `x/evm/keeper/precompiles.go` — `Keeper.Precompiles`.
The individual transaction handlers (`Transfer`, `TransferFrom`, `Mint`,
`Burn`, `BurnFrom`) live in files that are not part of the source sample;
they are modelled from the specification and from the expectations recorded
in the test files `tx_test.go` / `erc20_test.go`, and are marked as such.

Machine integers are modelled as `Nat` with explicit wrap-around where the
Go code performs `uint64` arithmetic; fallible Go functions return `Except`,
a Go `panic` is modelled as `Option.none`, and addresses, ABI byte payloads
and precompiled-contract implementations are abstracted as `Nat` values.
-/

namespace Erc20Precompile

/-! ### ABI method names

Method name constants of the ERC-20 precompile ABI (`transfer`,
`transferFrom`, …).  The string values follow the standard ERC-20 interface;
`burn0` is the name the ABI loader assigns to the second `burn` overload
`burn(address,uint256)`. -/

def TransferMethod : String := "transfer"

def TransferFromMethod : String := "transferFrom"

def ApproveMethod : String := "approve"

def IncreaseAllowanceMethod : String := "increaseAllowance"

def DecreaseAllowanceMethod : String := "decreaseAllowance"

def MintMethod : String := "mint"

def BurnMethod : String := "burn"

def Burn0Method : String := "burn0"

def BurnFromMethod : String := "burnFrom"

def TransferOwnershipMethod : String := "transferOwnership"

def NameMethod : String := "name"

def SymbolMethod : String := "symbol"

def DecimalsMethod : String := "decimals"

def TotalSupplyMethod : String := "totalSupply"

def BalanceOfMethod : String := "balanceOf"

def AllowanceMethod : String := "allowance"

def OwnerMethod : String := "owner"

/-! ### Gas constants (erc20.go) -/

def GasTransfer : Nat := 3000000

def GasApprove : Nat := 30956

def GasIncreaseAllowance : Nat := 34605

def GasDecreaseAllowance : Nat := 34519

def GasName : Nat := 3421

def GasSymbol : Nat := 3464

def GasDecimals : Nat := 427

def GasTotalSupply : Nat := 2477

def GasBalanceOf : Nat := 2851

def GasAllowance : Nat := 3246

def GasMint : Nat := 50000

def GasTransferOwnership : Nat := 25000

/-- The `switch method.Name` statement inside `RequiredGas` (erc20.go):
maps a resolved method name to its fixed gas cost, with the `default`
branch returning 0. -/
def requiredGasSwitch (methodName : String) : Nat :=
  if methodName = TransferMethod then GasTransfer
  else if methodName = TransferFromMethod then GasTransfer
  else if methodName = ApproveMethod then GasApprove
  else if methodName = IncreaseAllowanceMethod then GasIncreaseAllowance
  else if methodName = DecreaseAllowanceMethod then GasDecreaseAllowance
  else if methodName = MintMethod then GasMint
  else if methodName = BurnMethod then GasTransfer
  else if methodName = BurnFromMethod then GasTransfer
  else if methodName = TransferOwnershipMethod then GasTransferOwnership
  else if methodName = NameMethod then GasName
  else if methodName = SymbolMethod then GasSymbol
  else if methodName = DecimalsMethod then GasDecimals
  else if methodName = TotalSupplyMethod then GasTotalSupply
  else if methodName = BalanceOfMethod then GasBalanceOf
  else if methodName = AllowanceMethod then GasAllowance
  else 0

/-- `Precompile.RequiredGas` (erc20.go).  `methodById` abstracts the ABI's
`MethodById` resolver (the ABI table lives in `abi.json`, outside this
package's Go sources): it maps a 4-byte selector to the method name, or
`none` when the selector is unknown.  Payload bytes are `Nat`s. -/
def RequiredGas (methodById : List Nat → Option String) (input : List Nat) : Nat :=
  if input.length < 4 then 0
  else
    match methodById (input.take 4) with
    | none => 0
    | some methodName => requiredGasSwitch methodName

/-- A decoded ABI method: go-ethereum's `abi.Method`, restricted to the
fields the embedded functions read (`Name`) plus its argument signature to
state argument-independence. -/
structure AbiMethod where
  name : String
  inputTypes : List String
deriving DecidableEq

/-- `Precompile.IsTransaction` (erc20.go): the switch over `method.Name`
returning `true` for the nine transaction methods and `false` otherwise. -/
def IsTransaction (m : AbiMethod) : Bool :=
  m.name == TransferMethod ||
  m.name == TransferFromMethod ||
  m.name == ApproveMethod ||
  m.name == IncreaseAllowanceMethod ||
  m.name == DecreaseAllowanceMethod ||
  m.name == MintMethod ||
  m.name == BurnMethod ||
  m.name == BurnFromMethod ||
  m.name == TransferOwnershipMethod

/-- The nine transaction method names, as listed by the specification. -/
def txMethodNames : List String :=
  [TransferMethod, TransferFromMethod, ApproveMethod, IncreaseAllowanceMethod,
   DecreaseAllowanceMethod, MintMethod, BurnMethod, BurnFromMethod,
   TransferOwnershipMethod]

/-- The seven query method names, as listed by the specification. -/
def queryMethodNames : List String :=
  [NameMethod, SymbolMethod, DecimalsMethod, TotalSupplyMethod,
   BalanceOfMethod, AllowanceMethod, OwnerMethod]

/-! ### The execution bridge: `Run` and `HandleMethod` (erc20.go) -/

/-- Result bytes returned by a handler, abstracted as a list of byte values. -/
abbrev Bytes := List Nat

instance {ε α : Type} [DecidableEq ε] [DecidableEq α] : DecidableEq (Except ε α) := fun x y =>
  match x, y with
  | .error e, .error f => decidable_of_iff (e = f) (by simp)
  | .error _, .ok _ => .isFalse Except.noConfusion
  | .ok _, .error _ => .isFalse Except.noConfusion
  | .ok a, .ok b => decidable_of_iff (a = b) (by simp)

/-- The slice of go-ethereum's `vm.Contract` the embedded `Run` reads:
the attached value (`contract.Value()`, an arbitrary-precision integer) and
the remaining gas (`contract.Gas`, a `uint64`). -/
structure Contract where
  value : Int
  gas : Nat
deriving DecidableEq

/-- `vm.Contract.UseGas`: returns `none` (Go: `false`) when the remaining
gas is below `amount`, otherwise deducts `amount`. -/
def Contract.UseGas (c : Contract) (amount : Nat) : Option Contract :=
  if c.gas < amount then none
  else some { c with gas := c.gas - amount }

/-- Errors surfaced by `Run` and `HandleMethod`.  `handlerFailed` wraps an
error returned by a dispatched handler, `unknownMethod` is the `default`
branch of `HandleMethod`, `outOfGas` is `vm.ErrOutOfGas`. -/
inductive PrecompileError where
  | cannotReceiveFunds (value : Int)
  | setupFailed (msg : String)
  | handlerFailed (msg : String)
  | unknownMethod (methodName : String)
  | outOfGas
  | journalFailed (msg : String)
deriving DecidableEq

/-- The outcome of each handler the `HandleMethod` switch can dispatch to,
abstracted as its result (`Except` error message or result bytes).  The
`burn0` field records that the precompile has a `Burn0` handler, even
though `HandleMethod` has no case dispatching to it. -/
structure Handlers where
  transfer : Except String Bytes
  transferFrom : Except String Bytes
  approve : Except String Bytes
  increaseAllowance : Except String Bytes
  decreaseAllowance : Except String Bytes
  mint : Except String Bytes
  executeBurn : Except String Bytes
  burnFrom : Except String Bytes
  transferOwnership : Except String Bytes
  nameQuery : Except String Bytes
  symbolQuery : Except String Bytes
  decimalsQuery : Except String Bytes
  totalSupplyQuery : Except String Bytes
  balanceOfQuery : Except String Bytes
  ownerQuery : Except String Bytes
  allowanceQuery : Except String Bytes
  burn0 : Except String Bytes
deriving DecidableEq

/-- Lifts a handler outcome into the bridge's error type. -/
def liftHandler (r : Except String Bytes) : Except PrecompileError Bytes :=
  match r with
  | .error e => .error (.handlerFailed e)
  | .ok bz => .ok bz

/-- `Precompile.HandleMethod` (erc20.go): the switch over `method.Name`
dispatching to the sixteen handled methods; any other name — including
`burn0` — falls through to the `default` branch and yields the
unknown-method error. -/
def HandleMethod (h : Handlers) (methodName : String) : Except PrecompileError Bytes :=
  if methodName = TransferMethod then liftHandler h.transfer
  else if methodName = TransferFromMethod then liftHandler h.transferFrom
  else if methodName = ApproveMethod then liftHandler h.approve
  else if methodName = IncreaseAllowanceMethod then liftHandler h.increaseAllowance
  else if methodName = DecreaseAllowanceMethod then liftHandler h.decreaseAllowance
  else if methodName = MintMethod then liftHandler h.mint
  else if methodName = BurnMethod then liftHandler h.executeBurn
  else if methodName = BurnFromMethod then liftHandler h.burnFrom
  else if methodName = TransferOwnershipMethod then liftHandler h.transferOwnership
  else if methodName = NameMethod then liftHandler h.nameQuery
  else if methodName = SymbolMethod then liftHandler h.symbolQuery
  else if methodName = DecimalsMethod then liftHandler h.decimalsQuery
  else if methodName = TotalSupplyMethod then liftHandler h.totalSupplyQuery
  else if methodName = BalanceOfMethod then liftHandler h.balanceOfQuery
  else if methodName = OwnerMethod then liftHandler h.ownerQuery
  else if methodName = AllowanceMethod then liftHandler h.allowanceQuery
  else .error (.unknownMethod methodName)

/-- The values produced by a successful `RunSetup`: the decoded method name
and the ledger gas counter captured at call setup (`initialGas`). -/
structure RunSetupOk where
  methodName : String
  initialGas : Nat
deriving DecidableEq

/-- The external collaborators one `Run` invocation interacts with,
abstracted by their outcomes: the `RunSetup` result, the handler table, the
ledger gas meter's reading after the handler (`ctx.GasMeter().GasConsumed()`,
a `uint64`), and the outcome of `AddJournalEntries`. -/
structure RunEnv where
  setup : Except String RunSetupOk
  handlers : Handlers
  gasConsumedAfter : Nat
  addJournalEntries : Except String Unit
deriving DecidableEq

/-- 2^64, the modulus of Go's `uint64` arithmetic. -/
def uint64Mod : Nat := 18446744073709551616

/-- Go `uint64` subtraction `a - b`, with wrap-around. -/
def sub64 (a b : Nat) : Nat := (a % uint64Mod + uint64Mod - b % uint64Mod) % uint64Mod

/-- `Precompile.Run` (erc20.go): rejects a positive attached value, performs
call setup, dispatches via `HandleMethod`, charges the consumed ledger gas
to the VM contract with `UseGas`, adds the journal entries and returns the
result bytes.  The gas-error guard installed by `defer HandleGasError`
concerns panic recovery and is not part of the value-level semantics. -/
def Run (env : RunEnv) (contract : Contract) : Except PrecompileError (Bytes × Contract) :=
  if 0 < contract.value then .error (.cannotReceiveFunds contract.value)
  else
    match env.setup with
    | .error e => .error (.setupFailed e)
    | .ok setupRes =>
      match HandleMethod env.handlers setupRes.methodName with
      | .error e => .error e
      | .ok bz =>
        let cost := sub64 env.gasConsumedAfter setupRes.initialGas
        match contract.UseGas cost with
        | none => .error .outOfGas
        | some c =>
          match env.addJournalEntries with
          | .error e => .error (.journalFailed e)
          | .ok _ => .ok (bz, c)

/-! ### Pre-transfer balance check: `CanTransfer` (07_can_transfer.go) -/

/-- The slice of `core.Message` that `CanTransfer` reads: the gas fee cap
(`msg.GasFeeCap()`), the attached value (`msg.Value()`) and the sender
address (`msg.From()`, abstracted as a `Nat`). -/
structure CoreMsg where
  gasFeeCap : Int
  value : Int
  sender : Nat
deriving DecidableEq

/-- The two errors `CanTransfer` can return: the insufficient-fee error
quoting the fee cap and the base fee, and the insufficient-funds error
naming the value and the sender. -/
inductive TransferCheckError where
  | insufficientFee (feeCap baseFee : Int)
  | insufficientFunds (value : Int) (sender : Nat)
deriving DecidableEq

/-- `CanTransfer` (07_can_transfer.go).  `canXfer` abstracts the predicate
`evm.Context.CanTransfer(stateDB, from, value)` of the throwaway EVM built
for the check; `none` models a `nil` error return. -/
def CanTransfer (canXfer : Nat → Int → Bool) (msg : CoreMsg) (baseFee : Int)
    (isLondon : Bool) : Option TransferCheckError :=
  if isLondon = true ∧ msg.gasFeeCap < baseFee then
    some (.insufficientFee msg.gasFeeCap baseFee)
  else if 0 < msg.value ∧ canXfer msg.sender msg.value = false then
    some (.insufficientFunds msg.value msg.sender)
  else none

/-! ### Precompile registry: `Keeper.Precompiles` (precompiles.go)

Addresses and precompiled-contract implementations are abstracted as `Nat`;
the Go maps are association lists; the `panic` on an unregistered address is
modelled as `Option.none`. -/

/-- Association-list lookup (first match), the model of a Go map read. -/
def lookupA {α : Type} [DecidableEq α] : List (α × Nat) → α → Option Nat
  | [], _ => none
  | (k, v) :: rest, a => if a = k then some v else lookupA rest a

/-- Association-list update (replace first match or append), the model of a
Go map write. -/
def updateA {α : Type} [DecidableEq α] : List (α × Nat) → α → Nat → List (α × Nat)
  | [], a, v => [(a, v)]
  | (k, w) :: rest, a, v =>
    if a = k then (a, v) :: rest else (k, w) :: updateA rest a v

/-- `Keeper.Precompiles` (precompiles.go): for each requested active
address, look it up in the keeper's registered map (`k.precompiles`); an
address with no registered implementation panics (`none`); otherwise the
address/implementation pairs are collected into the returned map. -/
def Precompiles (registered : List (Nat × Nat)) : List Nat → Option (List (Nat × Nat))
  | [] => some []
  | a :: rest =>
    match lookupA registered a with
    | none => none
    | some impl =>
      match Precompiles registered rest with
      | none => none
      | some m => some ((a, impl) :: m)

/-! ### Ledger state and the transaction handlers (modelled from the spec)

The handler implementations (`tx.go`) are not part of the source sample —
only their tests are.  The definitions below are modelled from the
specification (§4.3) with the error outcomes pinned by the expectations in
`tx_test.go`.  A handler takes the ledger state for the bound denomination
and returns either an error (in which case the execution bridge discards
the checkpoint, so the state is unchanged) or the updated state. -/

/-- An account address, abstracted as a `Nat`. -/
abbrev Addr := Nat

/-- The ledger state visible to the handlers of one token pair: the balance
of each account in the bound denomination, and the spending grants keyed by
(grantor, grantee). -/
structure Ledger where
  balances : List (Addr × Nat)
  grants : List ((Addr × Addr) × Nat)
deriving DecidableEq

/-- Balance of `a` (a missing entry reads as zero). -/
def getBalance (st : Ledger) (a : Addr) : Nat := (lookupA st.balances a).getD 0

/-- Sets the balance of `a` to `v`. -/
def setBalance (st : Ledger) (a : Addr) (v : Nat) : Ledger :=
  { st with balances := updateA st.balances a v }

/-- Credits `amount` to `a`. -/
def creditBalance (st : Ledger) (a : Addr) (amount : Nat) : Ledger :=
  setBalance st a (getBalance st a + amount)

/-- Debits `amount` from `a`. -/
def debitBalance (st : Ledger) (a : Addr) (amount : Nat) : Ledger :=
  setBalance st a (getBalance st a - amount)

/-- Remaining limit of the spending grant from `grantor` to `grantee`, or
`none` when no grant exists. -/
def getGrant (st : Ledger) (grantor grantee : Addr) : Option Nat :=
  lookupA st.grants (grantor, grantee)

/-- Sets the remaining limit of the grant from `grantor` to `grantee`. -/
def setGrant (st : Ledger) (grantor grantee : Addr) (v : Nat) : Ledger :=
  { st with grants := updateA st.grants (grantor, grantee) v }

/-- The handler errors, named after the failure messages the tests expect:
`amountNotPositive` is the denomination-qualified "coin …{denom} amount is
not positive" error, `invalidCoins` is the "…{denom}: invalid coins" error
the `Mint` test expects for a negative amount, and
`subtractedValueExceedsAllowance` is the "subtracted value cannot be
greater than existing allowance" error the `BurnFrom` tests expect. -/
inductive Erc20Err where
  | invalidNumberOfArgs
  | invalidAddr (role : String)
  | invalidAmount
  | amountNotPositive (denom : String) (amount : Int)
  | invalidCoins (denom : String) (amount : Int)
  | transferAmountExceedsBalance
  | insufficientAllowance
  | subtractedValueExceedsAllowance
  | minterIsNotOwner
deriving DecidableEq

/-- Classifies the two allowance-insufficiency failures: the
`ErrInsufficientAllowance` message of `TransferFrom` and the
subtracted-value message of `BurnFrom` both report that the caller's
spending grant does not cover the requested amount. -/
def isInsufficientAllowanceError : Erc20Err → Bool
  | .insufficientAllowance => true
  | .subtractedValueExceedsAllowance => true
  | _ => false

/-- The ledger state a handler invocation leaves behind: on an error the
execution bridge discards the checkpoint, so the initial state survives. -/
def resultLedger (st : Ledger) (r : Except Erc20Err Ledger) : Ledger :=
  match r with
  | .error _ => st
  | .ok st1 => st1

/-- Modelled from the spec: the `Transfer` handler (its Go source `tx.go`
is not in the source sample).  Per §4.3 and `TestTransfer`: a non-positive
amount fails with the denomination-qualified amount-is-not-positive error,
an insufficient balance fails with `ErrTransferAmountExceedsBalance`, and
otherwise `amount` moves from the caller to `toA`. -/
def transfer (denom : String) (st : Ledger) (caller toA : Addr) (amount : Int) :
    Except Erc20Err Ledger :=
  if amount ≤ 0 then .error (.amountNotPositive denom amount)
  else if getBalance st caller < amount.toNat then .error .transferAmountExceedsBalance
  else .ok (creditBalance (debitBalance st caller amount.toNat) toA amount.toNat)

/-- Modelled from the spec: the `TransferFrom` handler (`tx.go` is not in
the source sample).  Per §4.3 and `TestTransferFrom`: a non-positive amount
fails first; when the caller differs from `fromA`, a missing grant or a
grant below the amount fails with `ErrInsufficientAllowance`, and a
sufficient grant is decremented; a self-spend needs no grant; then an
insufficient balance of `fromA` fails, and otherwise the coins move from
`fromA` to `toA`. -/
def transferFrom (denom : String) (st : Ledger) (caller fromA toA : Addr)
    (amount : Int) : Except Erc20Err Ledger :=
  if amount ≤ 0 then .error (.amountNotPositive denom amount)
  else
    let afterAuth : Except Erc20Err Ledger :=
      if caller = fromA then .ok st
      else
        match getGrant st fromA caller with
        | none => .error .insufficientAllowance
        | some lim =>
          if lim < amount.toNat then .error .insufficientAllowance
          else .ok (setGrant st fromA caller (lim - amount.toNat))
    match afterAuth with
    | .error e => .error e
    | .ok st1 =>
      if getBalance st1 fromA < amount.toNat then .error .transferAmountExceedsBalance
      else .ok (creditBalance (debitBalance st1 fromA amount.toNat) toA amount.toNat)

/-- Modelled from the spec: the `Mint` handler (`tx.go` is not in the
source sample).  Per §4.3 and `TestMint`: a caller other than the token
pair's owner fails with `ErrMinterIsNotOwner`; the minted coin is then
validated by the bank module, so a non-positive amount fails with the
invalid-coins error (`TestMint` expects "-1xmpl: invalid coins" for a
negative amount, not the amount-is-not-positive framing); otherwise the
amount is credited to `toA`. -/
def mint (denom : String) (ownerAddr : Addr) (st : Ledger) (caller toA : Addr)
    (amount : Int) : Except Erc20Err Ledger :=
  if caller ≠ ownerAddr then .error .minterIsNotOwner
  else if amount ≤ 0 then .error (.invalidCoins denom amount)
  else .ok (creditBalance st toA amount.toNat)

/-- Modelled from the spec: the `Burn` handler (`tx.go` is not in the
source sample).  Per §4.3: a non-positive amount fails with the
denomination-qualified amount-is-not-positive error; an insufficient caller
balance fails; otherwise the amount is burned from the caller's balance. -/
def burn (denom : String) (st : Ledger) (caller : Addr) (amount : Int) :
    Except Erc20Err Ledger :=
  if amount ≤ 0 then .error (.amountNotPositive denom amount)
  else if getBalance st caller < amount.toNat then .error .transferAmountExceedsBalance
  else .ok (debitBalance st caller amount.toNat)

/-- Modelled from the spec: the `BurnFrom` handler (`tx.go` is not in the
source sample).  Per §4.3 and `TestBurnFrom`: a non-positive amount fails
first; when the caller differs from `fromA`, the handler decreases the
grant from `fromA` to the caller, so a missing grant or a grant below the
amount fails with the subtracted-value-cannot-exceed-allowance error (the
message `TestBurnFrom` expects); a self-spend needs no grant; then an
insufficient balance of `fromA` fails, and otherwise the amount is burned
from `fromA`'s balance. -/
def burnFrom (denom : String) (st : Ledger) (caller fromA : Addr) (amount : Int) :
    Except Erc20Err Ledger :=
  if amount ≤ 0 then .error (.amountNotPositive denom amount)
  else
    let afterAuth : Except Erc20Err Ledger :=
      if caller = fromA then .ok st
      else
        match getGrant st fromA caller with
        | none => .error .subtractedValueExceedsAllowance
        | some lim =>
          if lim < amount.toNat then .error .subtractedValueExceedsAllowance
          else .ok (setGrant st fromA caller (lim - amount.toNat))
    match afterAuth with
    | .error e => .error e
    | .ok st1 =>
      if getBalance st1 fromA < amount.toNat then .error .transferAmountExceedsBalance
      else .ok (debitBalance st1 fromA amount.toNat)

/-! ### Shared helper lemmas -/

theorem lookupA_updateA {α : Type} [DecidableEq α] (l : List (α × Nat)) (a b : α)
    (v : Nat) : lookupA (updateA l a v) b = if b = a then some v else lookupA l b := by
  induction l with
  | nil =>
    by_cases h : b = a <;> simp [updateA, lookupA, h]
  | cons kv rest ih =>
    obtain ⟨k, w⟩ := kv
    by_cases hak : a = k
    · subst hak
      by_cases hba : b = a <;> simp [updateA, lookupA, hba]
    · by_cases hbk : b = k
      · subst hbk
        have hba : ¬ b = a := fun h => hak h.symm
        simp [updateA, lookupA, hak, hba]
      · simp [updateA, lookupA, hak, hbk, ih]

theorem lookupA_mem {α : Type} [DecidableEq α] (l : List (α × Nat)) (a : α) (v : Nat)
    (h : lookupA l a = some v) : (a, v) ∈ l := by
  induction l with
  | nil => simp [lookupA] at h
  | cons kv rest ih =>
    obtain ⟨k, w⟩ := kv
    by_cases hak : a = k
    · subst hak
      simp [lookupA] at h
      simp [h]
    · simp [lookupA, hak] at h
      simp [ih h]

theorem getBalance_setBalance_self (st : Ledger) (a : Addr) (v : Nat) :
    getBalance (setBalance st a v) a = v := by
  simp [getBalance, setBalance, lookupA_updateA]

theorem getBalance_setBalance_other (st : Ledger) (a b : Addr) (v : Nat)
    (h : b ≠ a) : getBalance (setBalance st a v) b = getBalance st b := by
  simp [getBalance, setBalance, lookupA_updateA, h]

theorem grants_setBalance (st : Ledger) (a : Addr) (v : Nat) :
    (setBalance st a v).grants = st.grants := rfl

theorem sub64_of_le (a b : Nat) (hba : b ≤ a) (ha : a < uint64Mod) :
    sub64 a b = a - b := by
  have hb : b < uint64Mod := lt_of_le_of_lt hba ha
  unfold sub64 uint64Mod at *
  omega

/-! ### Claim theorems -/

/-- C3: For every input payload, `RequiredGas` returns 0 when the payload
is shorter than 4 bytes, returns 0 when the first 4 bytes match no known
selector, and for every recognized selector returns exactly the fixed cost
recorded in the gas switch for that method — independent of the argument
bytes that follow the selector; the gas switch records exactly the fixed
gas constants of erc20.go for each of the fifteen priced methods. -/
theorem requiredGas_spec (methodById : List Nat → Option String) :
    (∀ input : List Nat, input.length < 4 → RequiredGas methodById input = 0) ∧
    (∀ input : List Nat, methodById (input.take 4) = none →
      RequiredGas methodById input = 0) ∧
    (∀ (input : List Nat) (m : String), 4 ≤ input.length →
      methodById (input.take 4) = some m →
      RequiredGas methodById input = requiredGasSwitch m) ∧
    (∀ sel args args' : List Nat, sel.length = 4 →
      RequiredGas methodById (sel ++ args) = RequiredGas methodById (sel ++ args')) ∧
    (requiredGasSwitch TransferMethod = GasTransfer ∧
     requiredGasSwitch TransferFromMethod = GasTransfer ∧
     requiredGasSwitch ApproveMethod = GasApprove ∧
     requiredGasSwitch IncreaseAllowanceMethod = GasIncreaseAllowance ∧
     requiredGasSwitch DecreaseAllowanceMethod = GasDecreaseAllowance ∧
     requiredGasSwitch MintMethod = GasMint ∧
     requiredGasSwitch BurnMethod = GasTransfer ∧
     requiredGasSwitch BurnFromMethod = GasTransfer ∧
     requiredGasSwitch TransferOwnershipMethod = GasTransferOwnership ∧
     requiredGasSwitch NameMethod = GasName ∧
     requiredGasSwitch SymbolMethod = GasSymbol ∧
     requiredGasSwitch DecimalsMethod = GasDecimals ∧
     requiredGasSwitch TotalSupplyMethod = GasTotalSupply ∧
     requiredGasSwitch BalanceOfMethod = GasBalanceOf ∧
     requiredGasSwitch AllowanceMethod = GasAllowance) := by
  refine ⟨?_, ?_, ?_, ?_, ?_⟩
  · intro input h
    simp [RequiredGas, h]
  · intro input h
    unfold RequiredGas
    rw [h]
    split <;> rfl
  · intro input m hlen hm
    have h4 : ¬ input.length < 4 := by omega
    unfold RequiredGas
    rw [hm, if_neg h4]
  · intro sel args args' h
    have h1 : ¬ (sel ++ args).length < 4 := by rw [List.length_append, h]; omega
    have h2 : ¬ (sel ++ args').length < 4 := by rw [List.length_append, h]; omega
    unfold RequiredGas
    rw [if_neg h1, if_neg h2, List.take_left' h, List.take_left' h]
  · exact ⟨rfl, rfl, rfl, rfl, rfl, rfl, rfl, rfl, rfl, rfl, rfl, rfl, rfl, rfl, rfl⟩

/-- A sample ABI selector table used to instantiate `requiredGas_spec`,
with the standard ERC-20 selectors for transfer, transferFrom and mint. -/
def sampleMethodById (sel : List Nat) : Option String :=
  if sel = [0xa9, 0x05, 0x9c, 0xbb] then some TransferMethod
  else if sel = [0x23, 0xb8, 0x72, 0xdd] then some TransferFromMethod
  else if sel = [0x40, 0xc1, 0x0f, 0x19] then some MintMethod
  else none

/-- Witness for C3: `requiredGas_spec` evaluated on a short payload, an
unknown selector and the transfer selector followed by argument bytes. -/
theorem requiredGas_spec_witness :
    RequiredGas sampleMethodById [0] = 0 ∧
    RequiredGas sampleMethodById [1, 2, 3, 4, 5] = 0 ∧
    RequiredGas sampleMethodById ([0xa9, 0x05, 0x9c, 0xbb] ++ [7, 7]) =
      requiredGasSwitch TransferMethod := by
  refine ⟨?_, ?_, ?_⟩
  · exact (requiredGas_spec sampleMethodById).1 [0] (by decide)
  · exact (requiredGas_spec sampleMethodById).2.1 [1, 2, 3, 4, 5] (by decide)
  · exact (requiredGas_spec sampleMethodById).2.2.1 ([0xa9, 0x05, 0x9c, 0xbb] ++ [7, 7])
      TransferMethod (by decide) (by decide)

/-- C7: `IsTransaction` partitions method names into two disjoint sets
independent of arguments: true for exactly the nine transaction methods,
false for every query method, and determined by the method name alone. -/
theorem isTransaction_spec :
    (∀ m : AbiMethod, IsTransaction m = true ↔ m.name ∈ txMethodNames) ∧
    (∀ m : AbiMethod, m.name ∈ queryMethodNames → IsTransaction m = false) ∧
    (∀ n ∈ txMethodNames, n ∉ queryMethodNames) ∧
    (∀ m m' : AbiMethod, m.name = m'.name → IsTransaction m = IsTransaction m') := by
  refine ⟨?_, ?_, ?_, ?_⟩
  · intro m
    simp only [IsTransaction, Bool.or_eq_true, beq_iff_eq, txMethodNames,
      List.mem_cons, List.not_mem_nil, or_false]
    tauto
  · intro m hm
    simp only [queryMethodNames, List.mem_cons, List.not_mem_nil, or_false] at hm
    rcases hm with h | h | h | h | h | h | h <;>
      simp only [IsTransaction, h] <;> decide
  · decide
  · intro m m' h
    simp [IsTransaction, h]

/-- Witness for C7: `isTransaction_spec` evaluated on the transfer method
(a transaction) and the owner method (a query). -/
theorem isTransaction_spec_witness :
    IsTransaction ⟨TransferMethod, ["address", "uint256"]⟩ = true ∧
    IsTransaction ⟨OwnerMethod, []⟩ = false := by
  constructor
  · exact (isTransaction_spec.1 ⟨TransferMethod, ["address", "uint256"]⟩).mpr (by decide)
  · exact isTransaction_spec.2.1 ⟨OwnerMethod, []⟩ (by decide)

/-- C8: `CanTransfer` returns the insufficient-fee error quoting both the
fee cap and the base fee iff the London rule is active and the fee cap is
below the base fee; otherwise it returns the insufficient-funds error
naming the value and the sender iff the message carries a positive value
the transfer predicate reports uncoverable; otherwise it returns nil. -/
theorem canTransfer_spec (canXfer : Nat → Int → Bool) (msg : CoreMsg) (baseFee : Int)
    (isLondon : Bool) :
    (CanTransfer canXfer msg baseFee isLondon =
        some (.insufficientFee msg.gasFeeCap baseFee) ↔
      isLondon = true ∧ msg.gasFeeCap < baseFee) ∧
    (CanTransfer canXfer msg baseFee isLondon =
        some (.insufficientFunds msg.value msg.sender) ↔
      ¬(isLondon = true ∧ msg.gasFeeCap < baseFee) ∧
        0 < msg.value ∧ canXfer msg.sender msg.value = false) ∧
    (CanTransfer canXfer msg baseFee isLondon = none ↔
      ¬(isLondon = true ∧ msg.gasFeeCap < baseFee) ∧
        ¬(0 < msg.value ∧ canXfer msg.sender msg.value = false)) := by
  unfold CanTransfer
  split_ifs with h1 h2 <;> simp_all

/-- Witness for C8: `canTransfer_spec` on a concrete London message whose
fee cap 5 is below base fee 10. -/
theorem canTransfer_spec_witness :
    CanTransfer (fun _ _ => false) ⟨5, 1, 9⟩ 10 true =
      some (.insufficientFee 5 10) :=
  ((canTransfer_spec (fun _ _ => false) ⟨5, 1, 9⟩ 10 true).1).mpr (by decide)

/-- C9: `Keeper.Precompiles` panics (modelled as `none`) iff some requested
address has no registered implementation; otherwise it returns a map whose
keys are exactly the requested addresses, each bound to its pre-registered
implementation. -/
theorem precompiles_spec (registered : List (Nat × Nat)) (active : List Nat) :
    (Precompiles registered active = none ↔
      ∃ a ∈ active, lookupA registered a = none) ∧
    (∀ m, Precompiles registered active = some m →
      (∀ a ∈ active, lookupA m a = lookupA registered a) ∧
      (∀ p ∈ m, p.1 ∈ active ∧ lookupA registered p.1 = some p.2) ∧
      (∀ a ∈ active, ∃ impl, (a, impl) ∈ m ∧ lookupA registered a = some impl)) := by
  induction active with
  | nil =>
    constructor
    · simp [Precompiles]
    · intro m hm
      simp [Precompiles] at hm
      subst hm
      simp
  | cons a rest ih =>
    constructor
    · constructor
      · intro h
        unfold Precompiles at h
        cases hla : lookupA registered a with
        | none => exact ⟨a, by simp, hla⟩
        | some impl =>
          rw [hla] at h
          cases hrest : Precompiles registered rest with
          | none =>
            obtain ⟨b, hb, hlb⟩ := ih.1.mp hrest
            exact ⟨b, by simp [hb], hlb⟩
          | some m =>
            rw [hrest] at h
            simp at h
      · rintro ⟨b, hb, hlb⟩
        unfold Precompiles
        rcases List.mem_cons.mp hb with rfl | hb'
        · rw [hlb]
        · cases hla : lookupA registered a with
          | none => rfl
          | some impl =>
            have hrest : Precompiles registered rest = none := ih.1.mpr ⟨_, hb', hlb⟩
            rw [hrest]
    · intro m hm
      unfold Precompiles at hm
      cases hla : lookupA registered a with
      | none =>
        rw [hla] at hm
        simp at hm
      | some impl =>
        rw [hla] at hm
        cases hrest : Precompiles registered rest with
        | none =>
          rw [hrest] at hm
          simp at hm
        | some mrest =>
          rw [hrest] at hm
          simp at hm
          subst hm
          obtain ⟨ih1, ih2, ih3⟩ := ih.2 mrest hrest
          refine ⟨?_, ?_, ?_⟩
          · intro b hb
            by_cases hba : b = a
            · subst hba
              simp [lookupA, hla]
            · rcases List.mem_cons.mp hb with h | h
              · exact absurd h hba
              · simp [lookupA, hba, ih1 b h]
          · intro p hp
            rcases List.mem_cons.mp hp with rfl | hp'
            · exact ⟨by simp, hla⟩
            · obtain ⟨h1, h2⟩ := ih2 p hp'
              exact ⟨by simp [h1], h2⟩
          · intro b hb
            rcases List.mem_cons.mp hb with rfl | hb'
            · exact ⟨impl, by simp, hla⟩
            · obtain ⟨i, hi, hl⟩ := ih3 b hb'
              exact ⟨i, by simp [hi], hl⟩

/-- Witness for C9: `precompiles_spec` on a registry with two entries and
one requested address. -/
theorem precompiles_spec_witness :
    lookupA [(1, 10)] 1 = lookupA [(2, 20), (1, 10)] 1 :=
  ((precompiles_spec [(2, 20), (1, 10)] [1]).2 [(1, 10)] (by decide)).1 1 (by decide)

/-- C1: On handler success, the gas cost charged to the VM contract is the
ledger gas meter's reading after the handler minus the counter captured at
setup; if the contract's remaining gas cannot cover it, `Run` returns the
out-of-gas error and no result bytes; otherwise the cost is deducted from
the contract's gas, the journal entries are added, and the result bytes are
returned. -/
theorem run_gas_accounting (env : RunEnv) (contract : Contract) (s : RunSetupOk)
    (bz : Bytes)
    (hval : contract.value ≤ 0)
    (hsetup : env.setup = .ok s)
    (hhandler : HandleMethod env.handlers s.methodName = .ok bz)
    (hjournal : env.addJournalEntries = .ok ())
    (hmono : s.initialGas ≤ env.gasConsumedAfter)
    (hbound : env.gasConsumedAfter < uint64Mod) :
    (contract.gas < env.gasConsumedAfter - s.initialGas →
      Run env contract = .error .outOfGas) ∧
    (env.gasConsumedAfter - s.initialGas ≤ contract.gas →
      Run env contract =
        .ok (bz, { contract with
                    gas := contract.gas - (env.gasConsumedAfter - s.initialGas) })) := by
  have hcost : sub64 env.gasConsumedAfter s.initialGas =
      env.gasConsumedAfter - s.initialGas := sub64_of_le _ _ hmono hbound
  have hnv : ¬ 0 < contract.value := not_lt.mpr hval
  constructor
  · intro hlt
    have huse : contract.UseGas (sub64 env.gasConsumedAfter s.initialGas) = none := by
      unfold Contract.UseGas
      rw [hcost, if_pos hlt]
    simp only [Run, if_neg hnv, hsetup, hhandler, huse]
  · intro hle
    have huse : contract.UseGas (sub64 env.gasConsumedAfter s.initialGas) =
        some { contract with
                gas := contract.gas - (env.gasConsumedAfter - s.initialGas) } := by
      unfold Contract.UseGas
      rw [hcost, if_neg (not_lt.mpr hle)]
    simp only [Run, if_neg hnv, hsetup, hhandler, huse, hjournal]

/-- A concrete handler table used to instantiate the `Run` theorems. -/
def sampleHandlers : Handlers :=
  { transfer := .ok [1], transferFrom := .ok [], approve := .ok [],
    increaseAllowance := .ok [], decreaseAllowance := .ok [], mint := .ok [],
    executeBurn := .ok [], burnFrom := .ok [], transferOwnership := .ok [],
    nameQuery := .ok [], symbolQuery := .ok [], decimalsQuery := .ok [],
    totalSupplyQuery := .ok [], balanceOfQuery := .ok [], ownerQuery := .ok [],
    allowanceQuery := .ok [], burn0 := .ok [9] }

/-- A concrete `Run` environment: a transfer call whose setup captured gas
counter 5 and whose ledger gas meter reads 12 after the handler. -/
def sampleEnv : RunEnv :=
  { setup := .ok ⟨TransferMethod, 5⟩, handlers := sampleHandlers,
    gasConsumedAfter := 12, addJournalEntries := .ok () }

/-- A second concrete `Run` environment whose setup fails. -/
def sampleEnvFailing : RunEnv :=
  { setup := .error "setup failed", handlers := sampleHandlers,
    gasConsumedAfter := 0, addJournalEntries := .error "journal failed" }

/-- Witness for C1: `run_gas_accounting` on `sampleEnv` deducts the cost
12 − 5 = 7 from a contract holding 100 gas. -/
theorem run_gas_accounting_witness :
    Run sampleEnv ⟨0, 100⟩ = .ok ([1], ⟨0, 93⟩) :=
  (run_gas_accounting sampleEnv ⟨0, 100⟩ ⟨TransferMethod, 5⟩ [1]
    (by decide) rfl rfl rfl (by decide) (by decide)).2 (by decide)

/-- C2: `Run` on a contract carrying a positive attached value returns the
cannot-receive-funds error, and the result is independent of everything the
call setup, the handlers and the ledger would provide — no method is
decoded and no ledger state is touched. -/
theorem run_rejects_positive_value (env env2 : RunEnv) (contract : Contract)
    (hval : 0 < contract.value) :
    Run env contract = .error (.cannotReceiveFunds contract.value) ∧
    Run env contract = Run env2 contract := by
  refine ⟨?_, ?_⟩ <;> simp only [Run, if_pos hval]

/-- Witness for C2: `run_rejects_positive_value` on a contract with value 5
under both a healthy and a failing environment. -/
theorem run_rejects_positive_value_witness :
    Run sampleEnv ⟨5, 100⟩ = .error (.cannotReceiveFunds 5) ∧
    Run sampleEnv ⟨5, 100⟩ = Run sampleEnvFailing ⟨5, 100⟩ :=
  run_rejects_positive_value sampleEnv sampleEnvFailing ⟨5, 100⟩ (by decide)

/-- C10: `HandleMethod` has no case for the legacy `burn0` method, so it
falls through to the default unknown-method error regardless of the
(present) `Burn0` handler, and a `Run` whose decoded method is `burn0`
never returns a successful result. -/
theorem burn0_not_dispatched (env : RunEnv) (contract : Contract) (s : RunSetupOk)
    (hsetup : env.setup = .ok s)
    (hname : s.methodName = Burn0Method) :
    HandleMethod env.handlers Burn0Method = .error (.unknownMethod Burn0Method) ∧
    ∀ r : Bytes × Contract, Run env contract ≠ .ok r := by
  have hswitch : ∀ h : Handlers,
      HandleMethod h Burn0Method = .error (.unknownMethod Burn0Method) := fun _ => rfl
  refine ⟨hswitch env.handlers, ?_⟩
  intro r hr
  by_cases hv : 0 < contract.value
  · simp only [Run, if_pos hv] at hr
    exact Except.noConfusion hr
  · simp only [Run, if_neg hv, hsetup, hname, hswitch env.handlers] at hr
    exact Except.noConfusion hr

/-- A concrete `Run` environment whose setup decoded the `burn0` method. -/
def sampleEnvBurn0 : RunEnv :=
  { setup := .ok ⟨Burn0Method, 0⟩, handlers := sampleHandlers,
    gasConsumedAfter := 0, addJournalEntries := .ok () }

/-- Witness for C10: `burn0_not_dispatched` on `sampleEnvBurn0`, whose
`burn0` handler would return bytes `[9]` were it reachable. -/
theorem burn0_not_dispatched_witness :
    HandleMethod sampleHandlers Burn0Method = .error (.unknownMethod Burn0Method) ∧
    Run sampleEnvBurn0 ⟨0, 10⟩ ≠ .ok ([9], ⟨0, 10⟩) := by
  have h := burn0_not_dispatched sampleEnvBurn0 ⟨0, 10⟩ ⟨Burn0Method, 0⟩ rfl rfl
  exact ⟨h.1, h.2 ([9], ⟨0, 10⟩)⟩

/-- The empty ledger. -/
def ledger0 : Ledger := ⟨[], []⟩

/-- C4 (amended): for every amount ≤ 0, `transfer`, `transferFrom`, `burn`
and `burnFrom` fail with the denomination-qualified amount-is-not-positive
error, while `mint` (called by the owner) fails with the invalid-coins
error; in every case the checkpoint is discarded, so no balance changes. -/
theorem nonpositive_amount_rejected (denom : String) (st : Ledger)
    (caller fromA toA ownerAddr : Addr) (amount : Int) (hle : amount ≤ 0) :
    transfer denom st caller toA amount = .error (.amountNotPositive denom amount) ∧
    transferFrom denom st caller fromA toA amount =
      .error (.amountNotPositive denom amount) ∧
    burn denom st caller amount = .error (.amountNotPositive denom amount) ∧
    burnFrom denom st caller fromA amount =
      .error (.amountNotPositive denom amount) ∧
    mint denom ownerAddr st ownerAddr toA amount =
      .error (.invalidCoins denom amount) ∧
    resultLedger st (transfer denom st caller toA amount) = st ∧
    resultLedger st (transferFrom denom st caller fromA toA amount) = st ∧
    resultLedger st (burn denom st caller amount) = st ∧
    resultLedger st (burnFrom denom st caller fromA amount) = st ∧
    resultLedger st (mint denom ownerAddr st ownerAddr toA amount) = st := by
  refine ⟨?_, ?_, ?_, ?_, ?_, ?_, ?_, ?_, ?_, ?_⟩ <;>
    simp [transfer, transferFrom, burn, burnFrom, mint, resultLedger, hle]

/-- Counterexample to C4 as stated: `mint` called by the owner with amount
−1 fails with the invalid-coins error, not with the denomination-qualified
amount-is-not-positive error the claim names for all Burn/Mint variants. -/
theorem mint_nonpositive_error_shape :
    mint "xmpl" 1 ledger0 1 2 (-1) = .error (.invalidCoins "xmpl" (-1)) ∧
    mint "xmpl" 1 ledger0 1 2 (-1) ≠ .error (.amountNotPositive "xmpl" (-1)) := by
  exact ⟨rfl, by decide⟩

/-- Witness for C4: `nonpositive_amount_rejected` at amount −1. -/
theorem nonpositive_amount_rejected_witness :
    transfer "xmpl" ledger0 1 2 (-1) = .error (.amountNotPositive "xmpl" (-1)) :=
  (nonpositive_amount_rejected "xmpl" ledger0 1 3 2 1 (-1) (by decide)).1

/-- C5: a `transferFrom` or `burnFrom` whose caller differs from the source
account and whose grant is missing or below the requested (positive) amount
fails with an allowance-insufficiency error, and the discarded checkpoint
leaves the ledger — in particular both balances — unchanged. -/
theorem insufficient_allowance_rejected (denom : String) (st : Ledger)
    (caller fromA toA : Addr) (amount : Int)
    (hne : caller ≠ fromA) (hpos : 0 < amount)
    (hgrant : ∀ lim, getGrant st fromA caller = some lim → lim < amount.toNat) :
    (∃ e, transferFrom denom st caller fromA toA amount = .error e ∧
      isInsufficientAllowanceError e = true) ∧
    resultLedger st (transferFrom denom st caller fromA toA amount) = st ∧
    (∃ e, burnFrom denom st caller fromA amount = .error e ∧
      isInsufficientAllowanceError e = true) ∧
    resultLedger st (burnFrom denom st caller fromA amount) = st := by
  have hnle : ¬ amount ≤ 0 := not_le.mpr hpos
  cases hg : getGrant st fromA caller with
  | none =>
    refine ⟨⟨.insufficientAllowance, ?_, rfl⟩, ?_,
            ⟨.subtractedValueExceedsAllowance, ?_, rfl⟩, ?_⟩ <;>
      simp [transferFrom, burnFrom, resultLedger, hnle, hne, hg]
  | some lim =>
    have hlt : lim < amount.toNat := hgrant lim hg
    refine ⟨⟨.insufficientAllowance, ?_, rfl⟩, ?_,
            ⟨.subtractedValueExceedsAllowance, ?_, rfl⟩, ?_⟩ <;>
      simp [transferFrom, burnFrom, resultLedger, hnle, hne, hg, hlt]

/-- Witness for C5: `insufficient_allowance_rejected` where account 1 holds
1000 units and caller 2 has no grant from it. -/
theorem insufficient_allowance_rejected_witness :
    resultLedger ⟨[(1, 1000)], []⟩
      (transferFrom "xmpl" ⟨[(1, 1000)], []⟩ 2 1 3 100) = ⟨[(1, 1000)], []⟩ :=
  (insufficient_allowance_rejected "xmpl" ⟨[(1, 1000)], []⟩ 2 1 3 100
    (by decide) (by decide)
    (fun lim hl => by simp [getGrant, lookupA] at hl)).2.1

/-- C6: a `transferFrom` whose caller equals the source account succeeds
for any positive amount up to the caller's balance without requiring or
consulting a spending grant — the grants are untouched, the result is
independent of the grants, and the recipient is credited by exactly the
amount. -/
theorem transferFrom_self_spend (denom : String) (st : Ledger) (caller toA : Addr)
    (amount : Int) (grants2 : List ((Addr × Addr) × Nat))
    (hpos : 0 < amount) (hbal : amount.toNat ≤ getBalance st caller)
    (hne : toA ≠ caller) :
    transferFrom denom st caller caller toA amount =
      .ok (creditBalance (debitBalance st caller amount.toNat) toA amount.toNat) ∧
    (creditBalance (debitBalance st caller amount.toNat) toA amount.toNat).grants =
      st.grants ∧
    getBalance (creditBalance (debitBalance st caller amount.toNat) toA
      amount.toNat) toA = getBalance st toA + amount.toNat ∧
    transferFrom denom { st with grants := grants2 } caller caller toA amount =
      .ok { creditBalance (debitBalance st caller amount.toNat) toA amount.toNat
              with grants := grants2 } := by
  have hnle : ¬ amount ≤ 0 := not_le.mpr hpos
  have hnlt : ¬ getBalance st caller < amount.toNat := not_lt.mpr hbal
  have hnlt2 : ¬ getBalance { st with grants := grants2 } caller < amount.toNat := hnlt
  refine ⟨?_, rfl, ?_, ?_⟩
  · simp [transferFrom, hnle, hnlt]
  · rw [creditBalance, getBalance_setBalance_self, debitBalance,
      getBalance_setBalance_other _ _ _ _ hne]
  · simp [transferFrom, creditBalance, debitBalance, setBalance, getBalance,
      hnle, hnlt, hnlt2]
    simp only [getBalance] at hbal
    omega

/-- Witness for C6: `transferFrom_self_spend` where caller 1 self-spends
100 of its 500 units towards account 3, with an unrelated grant present. -/
theorem transferFrom_self_spend_witness :
    transferFrom "xmpl" ⟨[(1, 500)], [((1, 2), 7)]⟩ 1 1 3 100 =
      .ok (creditBalance (debitBalance ⟨[(1, 500)], [((1, 2), 7)]⟩ 1
        (Int.toNat 100)) 3 (Int.toNat 100)) :=
  (transferFrom_self_spend "xmpl" ⟨[(1, 500)], [((1, 2), 7)]⟩ 1 3 100 []
    (by decide) (by decide) (by decide)).1

end Erc20Precompile
